import Mathlib

/-!
Verification of the casdoor-go-sdk request pipeline (`src/casdoorsdk/base.go`).

The Go code is shallowly embedded:
* JSON values decoded by Go's `encoding/json` into `interface` values are the
  mutual inductives `Json`/`JsonItems`/`JsonFields` (numbers restricted to
  integers; the wire data relevant to the verified properties never needs
  floats).
* `json.Marshal` is `jsonSerialize` (minimal escaping, no HTML escaping),
  `json.Unmarshal` is `jsonParse`, a fuel-based recursive-descent reading of
  the same grammar.
* The process-wide `authConfig` global is passed explicitly as an
  `AuthConfig` value; the pluggable `HttpClient` transport is a function
  parameter returning either an error or the raw response body.
* Go's `(value, error)` multiple returns are embedded literally as pairs of
  options, so statements about "nil pointer returned together with a non-nil
  error" stay contentful.
-/

set_option maxRecDepth 8000

namespace Casdoor

mutual

/-- JSON values as decoded by Go's `encoding/json` into an `interface` value.
Object fields keep their textual order; numbers are modelled as integers. -/
inductive Json where
  | null : Json
  | bool (b : Bool) : Json
  | num (n : Int) : Json
  | str (s : String) : Json
  | arr (elems : JsonItems) : Json
  | obj (fields : JsonFields) : Json

/-- Elements of a JSON array. -/
inductive JsonItems where
  | nil : JsonItems
  | cons (hd : Json) (tl : JsonItems) : JsonItems

/-- Fields of a JSON object, in textual order. -/
inductive JsonFields where
  | nil : JsonFields
  | cons (key : String) (val : Json) (tl : JsonFields) : JsonFields

end

/-- Builds a JSON array from a Lean list. -/
def jitems : List Json → JsonItems
  | [] => .nil
  | x :: xs => .cons x (jitems xs)

/-- Builds JSON object fields from a Lean list of key-value pairs. -/
def jfields : List (String × Json) → JsonFields
  | [] => .nil
  | (k, v) :: fs => .cons k v (jfields fs)

mutual

/-- Structural equality of JSON values, modelling Go's `==` on the decoded
`interface` values (in the code: `resp.Data == "Affected"`). -/
def jsonBEq : Json → Json → Bool
  | .null, .null => true
  | .bool a, .bool b => a == b
  | .num a, .num b => a == b
  | .str a, .str b => a == b
  | .arr a, .arr b => itemsBEq a b
  | .obj a, .obj b => fieldsBEq a b
  | _, _ => false

/-- Structural equality of JSON array elements. -/
def itemsBEq : JsonItems → JsonItems → Bool
  | .nil, .nil => true
  | .cons x xs, .cons y ys => jsonBEq x y && itemsBEq xs ys
  | _, _ => false

/-- Structural equality of JSON object fields. -/
def fieldsBEq : JsonFields → JsonFields → Bool
  | .nil, .nil => true
  | .cons k v fs, .cons k2 v2 fs2 => k == k2 && jsonBEq v v2 && fieldsBEq fs fs2
  | _, _ => false

end

/-- Decimal digit character for `n < 10`. -/
def digitChar (n : Nat) : Char := Char.ofNat (48 + n)

/-- Fuelled decimal printer for naturals (fuel `n + 1` always suffices). -/
def natCharsAux : Nat → Nat → List Char
  | 0, _ => []
  | fuel + 1, n =>
    if n < 10 then [digitChar n]
    else natCharsAux fuel (n / 10) ++ [digitChar (n % 10)]

/-- Decimal digits of a natural number, most significant first. -/
def natChars (n : Nat) : List Char := natCharsAux (n + 1) n

/-- Decimal digits of an integer, as Go's `encoding/json` prints it. -/
def intChars (n : Int) : List Char :=
  if n < 0 then '-' :: natChars (-n).toNat else natChars n.toNat

/-- JSON string escaping for one character (the model escapes the two
characters that would break the grammar; Go additionally escapes control and
HTML characters, which the verified properties never rely on). -/
def escChar (c : Char) : List Char :=
  if c = '"' then ['\\', '"'] else if c = '\\' then ['\\', '\\'] else [c]

/-- JSON string escaping. -/
def escapeChars : List Char → List Char
  | [] => []
  | c :: cs => escChar c ++ escapeChars cs

/-- Separator inserted between array elements. -/
def itemsSep : JsonItems → List Char
  | .nil => []
  | .cons _ _ => [',']

/-- Separator inserted between object fields. -/
def fieldsSep : JsonFields → List Char
  | .nil => []
  | .cons _ _ _ => [',']

/-- Characters of a literal keyword. -/
def litChars (s : String) : List Char := s.toList

/-- Serialized form of one object field, given the already serialized value. -/
def serOneField (k : String) (sv : List Char) : List Char :=
  '"' :: (escapeChars k.toList ++ '"' :: ':' :: sv)

mutual

/-- Serialization of a JSON value, modelling `json.Marshal` on a decoded
`interface` value. -/
def serJson : Json → List Char
  | .null => litChars "null"
  | .bool true => litChars "true"
  | .bool false => litChars "false"
  | .num n => intChars n
  | .str s => '"' :: (escapeChars s.toList ++ ['"'])
  | .arr xs => '[' :: (serItems xs ++ [']'])
  | .obj fs => '{' :: (serFields fs ++ ['}'])

/-- Serialization of array elements, comma separated. -/
def serItems : JsonItems → List Char
  | .nil => []
  | .cons x xs => serJson x ++ (itemsSep xs ++ serItems xs)

/-- Serialization of object fields, comma separated. -/
def serFields : JsonFields → List Char
  | .nil => []
  | .cons k v fs => serOneField k (serJson v) ++ (fieldsSep fs ++ serFields fs)

end

/-- String form of `json.Marshal`. -/
def jsonSerialize (d : Json) : String := String.mk (serJson d)

example : jsonSerialize (.arr (jitems [.num 1, .num 2])) = "[1,2]" := by rfl
example : jsonSerialize (.obj (jfields [("a", .str "x")])) = "\x7b\"a\":\"x\"\x7d" := by rfl
example : jsonSerialize (.num (-17)) = "-17" := by rfl
example : jsonSerialize (.bool false) = "false" := by rfl

/-! ### JSON parsing, the model of `json.Unmarshal` into an `interface` value -/

/-- JSON insignificant whitespace, as in Go's `encoding/json` scanner. -/
def isWsChar (c : Char) : Bool := c = ' ' || c = '\t' || c = '\n' || c = '\r'

/-- Skips insignificant whitespace. -/
def skipWs : List Char → List Char
  | [] => []
  | c :: cs => if isWsChar c then skipWs cs else c :: cs

/-- Tests whether the first character is `c`. -/
def headIs (c : Char) : List Char → Bool
  | [] => false
  | x :: _ => x = c

/-- Consumes the expected literal characters or fails. -/
def expectChars : List Char → List Char → Option (List Char)
  | [], cs => some cs
  | p :: ps, c :: cs => if c = p then expectChars ps cs else none
  | _ :: _, [] => none

/-- Resolves one escape sequence inside a JSON string (the model supports the
escapes its own serializer can produce plus the common single-character
ones; `\u` escapes are outside the model). -/
def unescape (c : Char) : Option Char :=
  if c = '"' then some '"'
  else if c = '\\' then some '\\'
  else if c = '/' then some '/'
  else if c = 'n' then some '\n'
  else if c = 't' then some '\t'
  else if c = 'r' then some '\r'
  else none

/-- Parses the body of a JSON string after the opening quote, returning the
unescaped characters and the rest after the closing quote. -/
def parseStrChars : List Char → Option (List Char × List Char)
  | [] => none
  | c :: rest =>
    if c = '"' then some ([], rest)
    else if c = '\\' then
      match rest with
      | [] => none
      | e :: rest2 =>
        match unescape e with
        | none => none
        | some u =>
          match parseStrChars rest2 with
          | none => none
          | some (s, r) => some (u :: s, r)
    else
      match parseStrChars rest with
      | none => none
      | some (s, r) => some (c :: s, r)

/-- Numeric value of a digit character. -/
def digitVal (c : Char) : Nat := c.toNat - 48

/-- Value of a string of decimal digits. -/
def digitsVal (ds : List Char) : Nat := ds.foldl (fun a c => a * 10 + digitVal c) 0

/-- Splits off the longest leading run of decimal digits. -/
def spanDigits : List Char → List Char × List Char
  | [] => ([], [])
  | c :: cs =>
    if c.isDigit then
      let (ds, r) := spanDigits cs
      (c :: ds, r)
    else ([], c :: cs)

/-- After an integer literal the model accepts no fraction or exponent
(numbers are modelled as integers). -/
def numEndOk : List Char → Bool
  | [] => true
  | c :: _ => !(c = '.' || c = 'e' || c = 'E')

/-- Parses the digits of a number after an optional leading minus sign. -/
def parseNumAfterSign (neg : Bool) (cs : List Char) : Option (Json × List Char) :=
  match spanDigits cs with
  | (ds, rest) =>
    if ds = [] then none
    else if numEndOk rest then
      let v : Int := (digitsVal ds : Int)
      some (.num (if neg then -v else v), rest)
    else none

mutual

/-- Parses one JSON value, skipping leading whitespace; `fuel` bounds the
nesting the parser will follow (callers pass the input length, which always
suffices). -/
def parseValue : Nat → List Char → Option (Json × List Char)
  | 0, _ => none
  | fuel + 1, cs =>
    match skipWs cs with
    | [] => none
    | c :: rest =>
      if c = 'n' then
        match expectChars ['u', 'l', 'l'] rest with
        | some r => some (.null, r)
        | none => none
      else if c = 't' then
        match expectChars ['r', 'u', 'e'] rest with
        | some r => some (.bool true, r)
        | none => none
      else if c = 'f' then
        match expectChars ['a', 'l', 's', 'e'] rest with
        | some r => some (.bool false, r)
        | none => none
      else if c = '"' then
        match parseStrChars rest with
        | some (s, r) => some (.str (String.mk s), r)
        | none => none
      else if c = '[' then
        let r1 := skipWs rest
        if headIs ']' r1 then some (.arr .nil, r1.tail)
        else
          match parseItems fuel r1 with
          | some (xs, r2) => some (.arr xs, r2)
          | none => none
      else if c = '{' then
        let r1 := skipWs rest
        if headIs '}' r1 then some (.obj .nil, r1.tail)
        else
          match parseFields fuel r1 with
          | some (fs, r2) => some (.obj fs, r2)
          | none => none
      else if c = '-' then parseNumAfterSign true rest
      else if c.isDigit then parseNumAfterSign false (c :: rest)
      else none

/-- Parses the elements of a non-empty JSON array up to and including the
closing bracket. -/
def parseItems : Nat → List Char → Option (JsonItems × List Char)
  | 0, _ => none
  | fuel + 1, cs =>
    match parseValue fuel cs with
    | none => none
    | some (v, rest) =>
      let r1 := skipWs rest
      if headIs ',' r1 then
        match parseItems fuel r1.tail with
        | some (vs, r2) => some (.cons v vs, r2)
        | none => none
      else if headIs ']' r1 then some (.cons v .nil, r1.tail)
      else none

/-- Parses the fields of a non-empty JSON object up to and including the
closing brace. -/
def parseFields : Nat → List Char → Option (JsonFields × List Char)
  | 0, _ => none
  | fuel + 1, cs =>
    if headIs '"' cs then
      match parseStrChars cs.tail with
      | none => none
      | some (k, r1) =>
        let r2 := skipWs r1
        if headIs ':' r2 then
          match parseValue fuel r2.tail with
          | none => none
          | some (v, r3) =>
            let r4 := skipWs r3
            if headIs ',' r4 then
              match parseFields fuel (skipWs r4.tail) with
              | some (fs, r5) => some (.cons (String.mk k) v fs, r5)
              | none => none
            else if headIs '}' r4 then some (.cons (String.mk k) v .nil, r4.tail)
            else none
        else none
    else none

end

/-- Model of `json.Unmarshal` of a whole document into an `interface` value:
one value, then only whitespace may remain. -/
def jsonParse (s : String) : Option Json :=
  match parseValue (s.toList.length + 1) s.toList with
  | none => none
  | some (v, rest) => if skipWs rest = [] then some v else none

example : jsonParse "[1, 2]" = some (.arr (jitems [.num 1, .num 2])) := by rfl
example : jsonParse " \x7b\"a\": -3, \"b\": [true, null]\x7d " =
    some (.obj (jfields [("a", .num (-3)), ("b", .arr (jitems [.bool true, .null]))])) := by rfl
example : jsonParse "\"a\\\"b\"" = some (.str "a\"b") := by rfl
example : jsonParse "\x7b\"a\":1" = none := by rfl
example : jsonParse "12x" = none := by rfl

/-! ### The response envelope (`Response` struct, base.go lines 43-48) -/

/-- The uniform JSON response envelope, `type Response struct` of base.go. -/
structure Response where
  status : String
  msg : String
  data : Json
  data2 : Json

/-- Zero value of the `Response` struct. -/
def Response.zero : Response := ⟨"", "", .null, .null⟩

/-- ASCII lower-casing of one character. -/
def lowerChar (c : Char) : Char :=
  if 'A' ≤ c ∧ c ≤ 'Z' then Char.ofNat (c.toNat + 32) else c

/-- ASCII lower-casing of a string (model of Go's case-insensitive JSON field
matching; the struct tags involved are all ASCII). -/
def lowerString (s : String) : String := String.mk (s.toList.map lowerChar)

/-- One step of `json.Unmarshal` into the `Response` struct: assign a decoded
object field to the matching struct field.  Go matches the JSON tag
case-insensitively, ignores unknown keys, errors on a type mismatch for the
string fields, leaves the field untouched on JSON `null`, and lets a later
duplicate key overwrite an earlier one. -/
def respSetField (r : Response) (k : String) (v : Json) : Option Response :=
  let kl := lowerString k
  if kl = "status" then
    match v with
    | .str s => some { r with status := s }
    | .null => some r
    | _ => none
  else if kl = "msg" then
    match v with
    | .str s => some { r with msg := s }
    | .null => some r
    | _ => none
  else if kl = "data" then some { r with data := v }
  else if kl = "data2" then some { r with data2 := v }
  else some r

/-- Folds all decoded object fields into the `Response` struct. -/
def respFromFields : JsonFields → Response → Option Response
  | .nil, r => some r
  | .cons k v fs, r =>
    match respSetField r k v with
    | none => none
    | some r2 => respFromFields fs r2

/-- Model of `json.Unmarshal(respBytes, &response)`: the document must be an
object (or `null`, which leaves the zero value). -/
def jsonToResponse : Json → Option Response
  | .obj fields => respFromFields fields Response.zero
  | .null => some Response.zero
  | _ => none

/-- Decodes a response body into the envelope struct. -/
def jsonUnmarshalResponse (s : String) : Option Response :=
  match jsonParse s with
  | none => none
  | some j => jsonToResponse j

/-- Error message the model uses for any `json.Unmarshal` failure (the exact
Go message text is irrelevant to every verified property). -/
def jsonUnmarshalErrMsg : String := "json: cannot unmarshal response"

example : jsonUnmarshalResponse
    "\x7b\"status\":\"ok\",\"msg\":\"\",\"data\":\"Affected\",\"data2\":null\x7d" =
    some ⟨"ok", "", .str "Affected", .null⟩ := by rfl
example : jsonUnmarshalResponse "\x7b\"status\":\"error\",\"msg\":\"oops\"\x7d" =
    some ⟨"error", "oops", .null, .null⟩ := by rfl

/-! ### Model of `fmt.Errorf` applied to a message with no operands

`DoGetResponse` and `DoPost` build the remote error with
`fmt.Errorf(response.Msg)`: the message is interpreted as a printf format
string with an empty operand list. -/

/-- Printf flag characters consumed after `%`. -/
def isFlagChar (c : Char) : Bool := c = '#' || c = '0' || c = '+' || c = '-' || c = ' '

/-- Skips printf flag characters. -/
def skipFlags : List Char → List Char
  | [] => []
  | c :: cs => if isFlagChar c then skipFlags cs else c :: cs

/-- Skips a printf width (a run of digits). -/
def skipWidth : List Char → List Char
  | [] => []
  | c :: cs => if c.isDigit then skipWidth cs else c :: cs

/-- Skips a printf precision (a dot followed by digits). -/
def skipPrec (cs : List Char) : List Char :=
  if headIs '.' cs then skipWidth cs.tail else cs

/-- Interprets a format string with an empty operand list, as
`fmt.Errorf(format)` does: literal text is copied, `%%` prints one percent
sign, a verb with a missing operand prints `%!v(MISSING)`, and a percent sign
that ends the string prints `%!(NOVERB)`.  (Width padding of `%%` and `*`
widths are outside the model; no verified property uses them.) -/
def fmtNoArgsAux : Nat → List Char → List Char
  | 0, cs => cs
  | _ + 1, [] => []
  | fuel + 1, c :: cs =>
    if c = '%' then
      match skipPrec (skipWidth (skipFlags cs)) with
      | [] => ('%' :: '!' :: '(' :: 'N' :: 'O' :: 'V' :: 'E' :: 'R' :: 'B' :: [')'])
      | v :: r2 =>
        if v = '%' then '%' :: fmtNoArgsAux fuel r2
        else '%' :: '!' :: v :: ('(' :: 'M' :: 'I' :: 'S' :: 'S' :: 'I' :: 'N' :: 'G' :: [')']) ++ fmtNoArgsAux fuel r2
    else c :: fmtNoArgsAux fuel cs

/-- Model of `fmt.Errorf(msg)` with no operands, returning the error text. -/
def goErrorfNoArgs (format : String) : String :=
  String.mk (fmtNoArgsAux (format.toList.length + 1) format.toList)

example : goErrorfNoArgs "user not found" = "user not found" := by rfl
example : goErrorfNoArgs "50%" = "50%!(NOVERB)" := by rfl
example : goErrorfNoArgs "100% sure" = "100%!s(MISSING)ure" := by rfl
example : goErrorfNoArgs "a%%b" = "a%b" := by rfl
example : goErrorfNoArgs "%d rows" = "%!d(MISSING) rows" := by rfl

/-! ### Configuration and transport boundary -/

/-- Modelled from the spec: the process-wide configuration, "endpoint base
URL, client id, client secret, organization name, application name,
certificate", set once by `InitConfig` (not under `src/`) and read as the
global `authConfig` by base.go.  The model passes it explicitly. -/
structure AuthConfig where
  endpoint : String
  clientId : String
  clientSecret : String
  organizationName : String
  applicationName : String
  certificate : String

/-- An authenticated GET request as handed to the injected `HttpClient`:
base.go builds it with `http.NewRequest("GET", url, nil)` plus
`req.SetBasicAuth(authConfig.ClientId, authConfig.ClientSecret)`. -/
structure GetRequest where
  url : String
  basicAuthUser : String
  basicAuthPass : String

/-- The transport boundary for GET calls: `client.Do` followed by reading the
response body, returning either an error or the body bytes. -/
def GetTransport : Type := GetRequest → Except String String

/-- `DoGetBytesRaw` (base.go lines 86-111): signs the request and returns the
raw body bytes from the transport. -/
def DoGetBytesRaw (cfg : AuthConfig) (t : GetTransport) (url : String) :
    Except String String :=
  t ⟨url, cfg.clientId, cfg.clientSecret⟩

/-- `DoGetResponse` (base.go lines 51-68): fetch bytes, unmarshal the
envelope, reject a status other than `"ok"` with `fmt.Errorf(response.Msg)`.
The Go return type `(*Response, error)` is embedded literally as a pair of
options. -/
def DoGetResponse (cfg : AuthConfig) (t : GetTransport) (url : String) :
    Option Response × Option String :=
  match DoGetBytesRaw cfg t url with
  | .error err => (none, some err)
  | .ok respBytes =>
    match jsonUnmarshalResponse respBytes with
    | none => (none, some jsonUnmarshalErrMsg)
    | some response =>
      if response.status ≠ "ok" then (none, some (goErrorfNoArgs response.msg))
      else (some response, none)

/-- `DoGetBytes` (base.go lines 71-83): `DoGetResponse`, then
`json.Marshal(response.Data)`.  (Marshalling a value decoded from JSON cannot
fail, so the model's marshal is total; the `(nil, nil)` branch mirrors the
unreachable case in which Go would dereference a nil response.) -/
def DoGetBytes (cfg : AuthConfig) (t : GetTransport) (url : String) :
    Option String × Option String :=
  match DoGetResponse cfg t url with
  | (_, some err) => (none, some err)
  | (some response, none) => (some (jsonSerialize response.data), none)
  | (none, none) => (none, none)

/-! ### POST side -/

/-- The three body encodings `DoPost` can produce. -/
inductive PostBody where
  | multipart (parts : List (String × String)) : PostBody
  | formUrlEncoded (fields : List (String × String)) : PostBody
  | raw (bytes : String) : PostBody

/-- An authenticated POST request as handed to the injected `HttpClient`.
`GetUrl` (not under `src/`) composes `<base>/<action>?<query>`; the model
keeps the action and the query parameters structured so that properties of
individual parameters can be stated. -/
structure PostRequest where
  action : String
  query : List (String × String)
  contentType : String
  body : PostBody
  basicAuthUser : String
  basicAuthPass : String

/-- The transport boundary for POST calls. -/
def PostTransport : Type := PostRequest → Except String String

/-- Modelled from the spec: `createFormFile` (not under `src/`) "encodes
body-bytes as a single-file multipart form"; it returns the content type and
the multipart body holding the given named parts. -/
def createFormFile (files : List (String × String)) : String × PostBody :=
  ("multipart/form-data", .multipart files)

/-- Modelled from the spec: `createForm` (not under `src/`) encodes a flat
string-keyed map "as application/x-www-form-urlencoded". -/
def createForm (params : List (String × String)) : String × PostBody :=
  ("application/x-www-form-urlencoded", .formUrlEncoded params)

/-- Decodes object fields into a flat string-keyed map, as `json.Unmarshal`
into `map[string]string` does: every value must be a string (a JSON `null`
leaves the zero value `""`); anything else is a type-mismatch error. -/
def fieldsToStringMap : JsonFields → Option (List (String × String))
  | .nil => some []
  | .cons k v fs =>
    match v with
    | .str s =>
      match fieldsToStringMap fs with
      | some m => some ((k, s) :: m)
      | none => none
    | .null =>
      match fieldsToStringMap fs with
      | some m => some ((k, "") :: m)
      | none => none
    | _ => none

/-- Model of `json.Unmarshal(postBytes, &params)` for
`var params map[string]string` (base.go lines 126-130). -/
def jsonParseStringMap (s : String) : Option (List (String × String)) :=
  match jsonParse s with
  | some (.obj fields) => fieldsToStringMap fields
  | some .null => some []
  | _ => none

/-- The request `DoPostBytesRaw` (base.go lines 161-193) hands to the
transport: empty content type defaults to text/plain, and the request carries
the basic-auth credentials. -/
def buildPostRequest (cfg : AuthConfig) (action : String)
    (query : List (String × String)) (contentType : String) (body : PostBody) :
    PostRequest :=
  let ct := if contentType = "" then "text/plain;charset=UTF-8" else contentType
  ⟨action, query, ct, body, cfg.clientId, cfg.clientSecret⟩

/-- `DoPostBytesRaw` (base.go lines 161-193): build and send the request,
returning the raw response body bytes. -/
def DoPostBytesRaw (cfg : AuthConfig) (t : PostTransport) (action : String)
    (query : List (String × String)) (contentType : String) (body : PostBody) :
    Except String String :=
  t (buildPostRequest cfg action query contentType body)

/-- Result of `DoPost`: the Go pair `(*Response, error)` embedded literally,
plus `sent`, model instrumentation recording the request delivered to the
transport (if the call got that far), used to state properties of the wire
request. -/
structure PostOutcome where
  resp : Option Response
  err : Option String
  sent : Option PostRequest

/-- Body-encoding step of `DoPost` (base.go lines 119-140): select content
type and body from `isForm` and `isFile`; decoding the post bytes as a flat
string map can fail. -/
def doPostEncode (postBytes : String) (isForm isFile : Bool) :
    Except String (String × PostBody) :=
  if isForm then
    if isFile then .ok (createFormFile [("file", postBytes)])
    else
      match jsonParseStringMap postBytes with
      | none => .error jsonUnmarshalErrMsg
      | some params => .ok (createForm params)
  else .ok ("text/plain;charset=UTF-8", .raw postBytes)

/-- Send-and-decode step of `DoPost` (base.go lines 142-157): send via
`DoPostBytesRaw`, unmarshal the envelope, and reject a status other than
`"ok"` with `fmt.Errorf(response.Msg)`. -/
def doPostSend (cfg : AuthConfig) (t : PostTransport) (action : String)
    (query : List (String × String)) (contentType : String) (body : PostBody) :
    PostOutcome :=
  match DoPostBytesRaw cfg t action query contentType body with
  | .error err =>
    ⟨none, some err, some (buildPostRequest cfg action query contentType body)⟩
  | .ok respBytes =>
    match jsonUnmarshalResponse respBytes with
    | none =>
      ⟨none, some jsonUnmarshalErrMsg, some (buildPostRequest cfg action query contentType body)⟩
    | some response =>
      if response.status ≠ "ok" then
        ⟨none, some (goErrorfNoArgs response.msg),
          some (buildPostRequest cfg action query contentType body)⟩
      else ⟨some response, none, some (buildPostRequest cfg action query contentType body)⟩

/-- `DoPost` (base.go lines 113-158): the encoding step followed by the
send-and-decode step. -/
def DoPost (cfg : AuthConfig) (t : PostTransport) (action : String)
    (queryMap : List (String × String)) (postBytes : String)
    (isForm isFile : Bool) : PostOutcome :=
  match doPostEncode postBytes isForm isFile with
  | .error err => ⟨none, some err, none⟩
  | .ok (contentType, body) => doPostSend cfg t action queryMap contentType body

/-! ### Entity mutate helpers (base.go lines 195-272) -/

/-- Modelled from the spec: the `User` entity (its struct lives outside
`src/`) "has an Owner and a Name" and, unlike roles and permissions, "the id
is a dedicated identifier field". -/
structure User where
  owner : String
  name : String
  id : String

/-- Modelled from the spec: `GetId` returns the user's dedicated identifier
field. -/
def User.GetId (u : User) : String := u.id

/-- Modelled from the spec: the `Permission` entity has an Owner and a Name. -/
structure Permission where
  owner : String
  name : String

/-- Modelled from the spec: the `Role` entity has an Owner and a Name. -/
structure Role where
  owner : String
  name : String

/-- Modelled from the spec: `json.Marshal` of a `User` serializes its fields
as a JSON object. -/
def userToJson (u : User) : Json :=
  .obj (jfields [("owner", .str u.owner), ("name", .str u.name), ("id", .str u.id)])

/-- Modelled from the spec: `json.Marshal` of a `Permission`. -/
def permissionToJson (p : Permission) : Json :=
  .obj (jfields [("owner", .str p.owner), ("name", .str p.name)])

/-- Modelled from the spec: `json.Marshal` of a `Role`. -/
def roleToJson (r : Role) : Json :=
  .obj (jfields [("owner", .str r.owner), ("name", .str r.name)])

/-- Result of a mutate helper: the Go triple `(*Response, bool, error)`
embedded literally, plus the `sent` instrumentation from `DoPost`. -/
structure ModifyOutcome where
  resp : Option Response
  affected : Bool
  err : Option String
  sent : Option PostRequest

/-- Shared tail of the three mutate helpers (base.go lines 216-221, 241-246,
266-271): `if err != nil` return `(nil, false, err)`, otherwise return
`(resp, resp.Data == "Affected", nil)`.  The `(nil, nil)` input never arises
from `DoPost`. -/
def modifyResult (out : PostOutcome) : ModifyOutcome :=
  match out.err with
  | some err => ⟨none, false, some err, out.sent⟩
  | none =>
    match out.resp with
    | some resp => ⟨some resp, jsonBEq resp.data (.str "Affected"), none, out.sent⟩
    | none => ⟨none, false, none, out.sent⟩

/-- Joins the column-restriction list, `strings.Join(columns, ",")`. -/
def joinColumns (columns : List String) : String := String.intercalate "," columns

/-- `modifyUserById` (base.go lines 201-222).  The helper mutates the passed
entity in place (`user.Owner = authConfig.OrganizationName`), so the model
returns the updated entity alongside the Go results. -/
def modifyUserById (cfg : AuthConfig) (t : PostTransport) (action : String)
    (id : String) (user : User) (columns : List String) : User × ModifyOutcome :=
  let queryMap := [("id", id)]
  let queryMap :=
    if columns.length ≠ 0 then queryMap ++ [("columns", joinColumns columns)]
    else queryMap
  let user := { user with owner := cfg.organizationName }
  let postBytes := jsonSerialize (userToJson user)
  (user, modifyResult (DoPost cfg t action queryMap postBytes false false))

/-- `modifyUser` (base.go lines 197-199): delegate with `user.GetId()`. -/
def modifyUser (cfg : AuthConfig) (t : PostTransport) (action : String)
    (user : User) (columns : List String) : User × ModifyOutcome :=
  modifyUserById cfg t action user.GetId user columns

/-- `modifyPermission` (base.go lines 226-247): the id query parameter is
`fmt.Sprintf("%s/%s", permission.Owner, permission.Name)` computed before the
owner is overwritten. -/
def modifyPermission (cfg : AuthConfig) (t : PostTransport) (action : String)
    (permission : Permission) (columns : List String) : Permission × ModifyOutcome :=
  let queryMap := [("id", permission.owner ++ "/" ++ permission.name)]
  let queryMap :=
    if columns.length ≠ 0 then queryMap ++ [("columns", joinColumns columns)]
    else queryMap
  let permission := { permission with owner := cfg.organizationName }
  let postBytes := jsonSerialize (permissionToJson permission)
  (permission, modifyResult (DoPost cfg t action queryMap postBytes false false))

/-- `modifyRole` (base.go lines 251-272). -/
def modifyRole (cfg : AuthConfig) (t : PostTransport) (action : String)
    (role : Role) (columns : List String) : Role × ModifyOutcome :=
  let queryMap := [("id", role.owner ++ "/" ++ role.name)]
  let queryMap :=
    if columns.length ≠ 0 then queryMap ++ [("columns", joinColumns columns)]
    else queryMap
  let role := { role with owner := cfg.organizationName }
  let postBytes := jsonSerialize (roleToJson role)
  (role, modifyResult (DoPost cfg t action queryMap postBytes false false))

/-- Query-parameter lookup in the structured query of a request. -/
def qlookup (k : String) : List (String × String) → Option String
  | [] => none
  | (k2, v) :: rest => if k2 = k then some v else qlookup k rest

/-! ### Shared concrete values used to exercise the theorems -/

/-- A concrete configuration for exercising the theorems. -/
def cfgEx : AuthConfig :=
  ⟨"https://door.example.com", "cid", "csecret", "org-ex", "app-ex", "cert"⟩

/-- A concrete success envelope body whose data is the `"Affected"` sentinel. -/
def okAffectedWire : String :=
  "\x7b\"status\":\"ok\",\"msg\":\"\",\"data\":\"Affected\",\"data2\":null\x7d"

/-- A POST transport that always answers with `okAffectedWire`. -/
def tPostOk : PostTransport := fun _ => .ok okAffectedWire

/-- A concrete success envelope whose data field was written `[1, 2]`, with a
space, on the wire. -/
def okArrayWire : String :=
  "\x7b\"status\":\"ok\",\"msg\":\"\",\"data\":[1, 2],\"data2\":null\x7d"

/-- A concrete failure envelope whose msg contains a percent sign. -/
def errPercentWire : String :=
  "\x7b\"status\":\"error\",\"msg\":\"50%\"\x7d"

/-- Characters that may legally follow a serialized JSON value inside a
document: end of input or a separator/closer.  Used to state the
parse-of-serialize round trip. -/
def sepHead : List Char → Bool
  | [] => true
  | c :: _ => c = ',' || c = ']' || c = '}'

end Casdoor

namespace Casdoor

/-! ### Supporting lemmas -/

theorem jsonBEq_str_iff (a : Json) (s : String) :
    jsonBEq a (.str s) = true ↔ a = .str s := by
  cases a <;> simp [jsonBEq]

theorem modifyResult_sent (out : PostOutcome) :
    (modifyResult out).sent = out.sent := by
  unfold modifyResult
  cases h : out.err <;> simp
  cases h2 : out.resp <;> simp

theorem modifyResult_err_shape (out : PostOutcome) (e : String)
    (h : (modifyResult out).err = some e) :
    (modifyResult out).resp = none ∧ (modifyResult out).affected = false := by
  unfold modifyResult at *
  cases h1 : out.err <;> simp [h1] at h ⊢
  cases h2 : out.resp <;> simp [h2] at h

theorem modifyResult_resp_shape (out : PostOutcome) (r : Response)
    (h : (modifyResult out).resp = some r) :
    (modifyResult out).err = none ∧
      (modifyResult out).affected = jsonBEq r.data (.str "Affected") := by
  unfold modifyResult at *
  cases h1 : out.err <;> simp [h1] at h ⊢
  cases h2 : out.resp <;> simp [h2] at h ⊢
  simp [h]

theorem doGetResponse_some (cfg : AuthConfig) (t : GetTransport) (url : String)
    (r : Response) (h : (DoGetResponse cfg t url).1 = some r) :
    r.status = "ok" ∧ (DoGetResponse cfg t url).2 = none := by
  unfold DoGetResponse at *
  split at h
  · simp at h
  · split at h
    · simp at h
    · split at h
      · simp at h
      · rename_i hstat
        simp at h
        simp [hstat, ← h]
        simpa using hstat

theorem doPostSend_resp_some (cfg : AuthConfig) (t : PostTransport) (action : String)
    (q : List (String × String)) (ct : String) (body : PostBody) (r : Response)
    (h : (doPostSend cfg t action q ct body).resp = some r) :
    r.status = "ok" ∧ (doPostSend cfg t action q ct body).err = none := by
  unfold doPostSend at *
  split at h
  · simp at h
  · split at h
    · simp at h
    · split at h
      · simp at h
      · rename_i hstat
        simp at h
        simp [hstat, ← h]
        simpa using hstat

theorem doPostSend_err_none (cfg : AuthConfig) (t : PostTransport) (action : String)
    (q : List (String × String)) (ct : String) (body : PostBody)
    (h : (doPostSend cfg t action q ct body).err = none) :
    ∃ r, (doPostSend cfg t action q ct body).resp = some r := by
  unfold doPostSend at *
  split at h
  · simp at h
  · split at h
    · simp at h
    · split at h
      · simp at h
      · simp_all

theorem doPostSend_sent (cfg : AuthConfig) (t : PostTransport) (action : String)
    (q : List (String × String)) (ct : String) (body : PostBody) :
    (doPostSend cfg t action q ct body).sent =
      some (buildPostRequest cfg action q ct body) := by
  unfold doPostSend
  split
  · rfl
  · split
    · rfl
    · split <;> rfl

theorem doPost_resp_some (cfg : AuthConfig) (t : PostTransport) (action : String)
    (q : List (String × String)) (pb : String) (b1 b2 : Bool) (r : Response)
    (h : (DoPost cfg t action q pb b1 b2).resp = some r) :
    r.status = "ok" ∧ (DoPost cfg t action q pb b1 b2).err = none := by
  unfold DoPost at *
  split at h
  · simp at h
  · exact doPostSend_resp_some cfg t action q _ _ r h

theorem doPost_err_none (cfg : AuthConfig) (t : PostTransport) (action : String)
    (q : List (String × String)) (pb : String) (b1 b2 : Bool)
    (h : (DoPost cfg t action q pb b1 b2).err = none) :
    ∃ r, (DoPost cfg t action q pb b1 b2).resp = some r := by
  unfold DoPost at *
  split at h
  · simp at h
  · exact doPostSend_err_none cfg t action q _ _ h

theorem doPost_notForm (cfg : AuthConfig) (t : PostTransport) (action : String)
    (q : List (String × String)) (pb : String) (b : Bool) :
    DoPost cfg t action q pb false b =
      doPostSend cfg t action q "text/plain;charset=UTF-8" (.raw pb) := by
  unfold DoPost doPostEncode
  simp

theorem modifyUserById_unfold (cfg : AuthConfig) (t : PostTransport)
    (a id : String) (u : User) (c : List String) :
    modifyUserById cfg t a id u c =
      ({ u with owner := cfg.organizationName },
        modifyResult (doPostSend cfg t a
          (if c.length ≠ 0 then [("id", id), ("columns", joinColumns c)] else [("id", id)])
          "text/plain;charset=UTF-8"
          (.raw (jsonSerialize (userToJson { u with owner := cfg.organizationName }))))) := by
  unfold modifyUserById
  by_cases h : c.length ≠ 0 <;> simp [h, doPost_notForm]

theorem modifyPermission_unfold (cfg : AuthConfig) (t : PostTransport)
    (a : String) (p : Permission) (c : List String) :
    modifyPermission cfg t a p c =
      ({ p with owner := cfg.organizationName },
        modifyResult (doPostSend cfg t a
          (if c.length ≠ 0 then
            [("id", p.owner ++ "/" ++ p.name), ("columns", joinColumns c)]
          else [("id", p.owner ++ "/" ++ p.name)])
          "text/plain;charset=UTF-8"
          (.raw (jsonSerialize (permissionToJson { p with owner := cfg.organizationName }))))) := by
  unfold modifyPermission
  by_cases h : c.length ≠ 0 <;> simp [h, doPost_notForm]

theorem modifyRole_unfold (cfg : AuthConfig) (t : PostTransport)
    (a : String) (r : Role) (c : List String) :
    modifyRole cfg t a r c =
      ({ r with owner := cfg.organizationName },
        modifyResult (doPostSend cfg t a
          (if c.length ≠ 0 then
            [("id", r.owner ++ "/" ++ r.name), ("columns", joinColumns c)]
          else [("id", r.owner ++ "/" ++ r.name)])
          "text/plain;charset=UTF-8"
          (.raw (jsonSerialize (roleToJson { r with owner := cfg.organizationName }))))) := by
  unfold modifyRole
  by_cases h : c.length ≠ 0 <;> simp [h, doPost_notForm]

end Casdoor

namespace Casdoor

/-! ### Claim theorems -/

/-- Claim C8: every mutate-helper call on a User, Permission, or Role passed
by reference mutates the caller's entity in place: after the call the
entity's Owner field equals the configured organization name, for every
transport outcome (including erroring transports), so the original Owner
value is lost regardless of outcome. -/
theorem c8_owner_overwritten_in_place (cfg : AuthConfig)
    (t1 t2 t3 t4 : PostTransport) (a1 a2 a3 a4 id : String) (u u2 : User)
    (p : Permission) (r : Role) (c1 c2 c3 c4 : List String) :
    ((modifyUserById cfg t1 a1 id u c1).1).owner = cfg.organizationName ∧
    ((modifyUser cfg t2 a2 u2 c2).1).owner = cfg.organizationName ∧
    ((modifyPermission cfg t3 a3 p c3).1).owner = cfg.organizationName ∧
    ((modifyRole cfg t4 a4 r c4).1).owner = cfg.organizationName :=
  ⟨rfl, rfl, rfl, rfl⟩

/-- Claim C9: whenever a mutate helper returns a non-nil error, the returned
envelope is nil and the affected flag is false; and a non-nil envelope is
returned only together with a nil error. -/
theorem c9_error_implies_nil_envelope (cfg : AuthConfig)
    (t1 t2 t3 : PostTransport) (a1 a2 a3 id : String) (u : User)
    (p : Permission) (r : Role) (c1 c2 c3 : List String)
    (e1 e2 e3 : String) (r1 r2 r3 : Response) :
    (((modifyUserById cfg t1 a1 id u c1).2.err = some e1 →
        (modifyUserById cfg t1 a1 id u c1).2.resp = none ∧
          (modifyUserById cfg t1 a1 id u c1).2.affected = false) ∧
      ((modifyUserById cfg t1 a1 id u c1).2.resp = some r1 →
        (modifyUserById cfg t1 a1 id u c1).2.err = none)) ∧
    (((modifyPermission cfg t2 a2 p c2).2.err = some e2 →
        (modifyPermission cfg t2 a2 p c2).2.resp = none ∧
          (modifyPermission cfg t2 a2 p c2).2.affected = false) ∧
      ((modifyPermission cfg t2 a2 p c2).2.resp = some r2 →
        (modifyPermission cfg t2 a2 p c2).2.err = none)) ∧
    (((modifyRole cfg t3 a3 r c3).2.err = some e3 →
        (modifyRole cfg t3 a3 r c3).2.resp = none ∧
          (modifyRole cfg t3 a3 r c3).2.affected = false) ∧
      ((modifyRole cfg t3 a3 r c3).2.resp = some r3 →
        (modifyRole cfg t3 a3 r c3).2.err = none)) := by
  rw [modifyUserById_unfold, modifyPermission_unfold, modifyRole_unfold]
  exact ⟨⟨fun h => modifyResult_err_shape _ _ h, fun h => (modifyResult_resp_shape _ _ h).1⟩,
    ⟨fun h => modifyResult_err_shape _ _ h, fun h => (modifyResult_resp_shape _ _ h).1⟩,
    ⟨fun h => modifyResult_err_shape _ _ h, fun h => (modifyResult_resp_shape _ _ h).1⟩⟩

/-- Witness for C9 at concrete inputs: a transport that fails with
`"network down"` makes `modifyRole` return no envelope and `affected =
false`, and a transport that answers an ok envelope makes the error nil. -/
theorem c9_error_implies_nil_envelope_witness :
    ((modifyRole cfgEx (fun _ => .error "network down") "add-role" ⟨"org1", "editor"⟩ []).2.resp = none ∧
      (modifyRole cfgEx (fun _ => .error "network down") "add-role" ⟨"org1", "editor"⟩ []).2.affected = false) ∧
    (modifyUserById cfgEx tPostOk "update-user" "org-ex/bob" ⟨"o", "bob", "org-ex/bob"⟩ []).2.err = none := by
  refine ⟨(c9_error_implies_nil_envelope cfgEx (fun _ => .error "network down")
    (fun _ => .error "network down") (fun _ => .error "network down")
    "add-role" "add-role" "add-role" "x" ⟨"o", "bob", "org-ex/bob"⟩ ⟨"org1", "editor"⟩
    ⟨"org1", "editor"⟩ [] [] [] "network down" "network down" "network down"
    ⟨"ok", "", .null, .null⟩ ⟨"ok", "", .null, .null⟩ ⟨"ok", "", .null, .null⟩).2.2.1 rfl, ?_⟩
  exact (c9_error_implies_nil_envelope cfgEx tPostOk tPostOk tPostOk
    "update-user" "a" "a" "org-ex/bob" ⟨"o", "bob", "org-ex/bob"⟩ ⟨"org1", "editor"⟩
    ⟨"org1", "editor"⟩ [] [] [] "e" "e" "e"
    ⟨"ok", "", .str "Affected", .null⟩ ⟨"ok", "", .null, .null⟩ ⟨"ok", "", .null, .null⟩).1.2 rfl

/-- Claim C10: every non-nil envelope returned by `DoGetResponse` or `DoPost`
has its Status field equal to `"ok"`; no caller of the pipeline ever observes
a decoded envelope whose status is anything else. -/
theorem c10_returned_envelope_status_ok (cfg : AuthConfig) (t : GetTransport)
    (url : String) (r : Response) (e : Option String) (t2 : PostTransport)
    (action : String) (q : List (String × String)) (pb : String)
    (b1 b2 : Bool) (r2 : Response) :
    (DoGetResponse cfg t url = (some r, e) → r.status = "ok") ∧
    ((DoPost cfg t2 action q pb b1 b2).resp = some r2 → r2.status = "ok") := by
  constructor
  · intro h
    have h1 : (DoGetResponse cfg t url).1 = some r := by rw [h]
    exact (doGetResponse_some cfg t url r h1).1
  · intro h
    exact (doPost_resp_some cfg t2 action q pb b1 b2 r2 h).1

/-- Witness for C10 at concrete inputs: both pipeline operations, run against
a transport answering a concrete `"ok"` envelope, return an envelope whose
status is `"ok"`. -/
theorem c10_returned_envelope_status_ok_witness :
    (⟨"ok", "", Json.str "Affected", Json.null⟩ : Response).status = "ok" ∧
    (⟨"ok", "", Json.str "Affected", Json.null⟩ : Response).status = "ok" := by
  have h := c10_returned_envelope_status_ok cfgEx (fun _ => .ok okAffectedWire) "u"
    ⟨"ok", "", Json.str "Affected", Json.null⟩ none tPostOk "add-role" [] "" false false
    ⟨"ok", "", Json.str "Affected", Json.null⟩
  exact ⟨h.1 rfl, h.2 rfl⟩

/-- Claim C4: a mutate-helper call that completes without error returns
`(envelope, affected, nil)` where `affected` is true if and only if the
envelope's data field equals the literal string `"Affected"`. -/
theorem c4_affected_iff_data_sentinel (cfg : AuthConfig)
    (t1 t2 t3 : PostTransport) (a1 a2 a3 id : String) (u : User)
    (p : Permission) (r : Role) (c1 c2 c3 : List String) (r1 r2 r3 : Response) :
    ((modifyUserById cfg t1 a1 id u c1).2.err = none →
      (modifyUserById cfg t1 a1 id u c1).2.resp = some r1 →
      ((modifyUserById cfg t1 a1 id u c1).2.affected = true ↔ r1.data = .str "Affected")) ∧
    ((modifyPermission cfg t2 a2 p c2).2.err = none →
      (modifyPermission cfg t2 a2 p c2).2.resp = some r2 →
      ((modifyPermission cfg t2 a2 p c2).2.affected = true ↔ r2.data = .str "Affected")) ∧
    ((modifyRole cfg t3 a3 r c3).2.err = none →
      (modifyRole cfg t3 a3 r c3).2.resp = some r3 →
      ((modifyRole cfg t3 a3 r c3).2.affected = true ↔ r3.data = .str "Affected")) := by
  rw [modifyUserById_unfold, modifyPermission_unfold, modifyRole_unfold]
  refine ⟨fun _ h => ?_, fun _ h => ?_, fun _ h => ?_⟩ <;>
    rw [(modifyResult_resp_shape _ _ h).2] <;>
    exact jsonBEq_str_iff _ _

/-- Witness for C4 at concrete inputs: against a transport answering the
envelope whose data is `"Affected"`, each helper reports `affected = true`. -/
theorem c4_affected_iff_data_sentinel_witness :
    (modifyUserById cfgEx tPostOk "update-user" "org-ex/bob" ⟨"o", "bob", "org-ex/bob"⟩ []).2.affected = true ∧
    (modifyPermission cfgEx tPostOk "add-permission" ⟨"org1", "perm"⟩ []).2.affected = true ∧
    (modifyRole cfgEx tPostOk "add-role" ⟨"org1", "editor"⟩ []).2.affected = true := by
  have h := c4_affected_iff_data_sentinel cfgEx tPostOk tPostOk tPostOk
    "update-user" "add-permission" "add-role" "org-ex/bob" ⟨"o", "bob", "org-ex/bob"⟩
    ⟨"org1", "perm"⟩ ⟨"org1", "editor"⟩ [] [] []
    ⟨"ok", "", .str "Affected", .null⟩ ⟨"ok", "", .str "Affected", .null⟩
    ⟨"ok", "", .str "Affected", .null⟩
  exact ⟨(h.1 rfl rfl).mpr rfl, (h.2.1 rfl rfl).mpr rfl, (h.2.2 rfl rfl).mpr rfl⟩

end Casdoor

namespace Casdoor

theorem qlookup_id (x y : String) :
    qlookup "id" [("id", x)] = some x ∧
      qlookup "id" [("id", x), ("columns", y)] = some x := by
  simp [qlookup]

theorem qlookup_columns (x y : String) :
    qlookup "columns" [("id", x)] = none ∧
      qlookup "columns" [("id", x), ("columns", y)] = some y := by
  have hne : ("id" : String) ≠ "columns" := by decide
  simp [qlookup, hne]

theorem doPost_formFile (cfg : AuthConfig) (t : PostTransport) (action : String)
    (q : List (String × String)) (pb : String) :
    DoPost cfg t action q pb true true =
      doPostSend cfg t action q "multipart/form-data" (.multipart [("file", pb)]) := rfl

theorem doPost_form (cfg : AuthConfig) (t : PostTransport) (action : String)
    (q : List (String × String)) (pb : String) (params : List (String × String))
    (h : jsonParseStringMap pb = some params) :
    DoPost cfg t action q pb true false =
      doPostSend cfg t action q "application/x-www-form-urlencoded" (.formUrlEncoded params) := by
  unfold DoPost doPostEncode
  simp [h, createForm]

theorem doPost_form_badMap (cfg : AuthConfig) (t : PostTransport) (action : String)
    (q : List (String × String)) (pb : String)
    (h : jsonParseStringMap pb = none) :
    DoPost cfg t action q pb true false = ⟨none, some jsonUnmarshalErrMsg, none⟩ := by
  unfold DoPost doPostEncode
  simp [h]

/-- Claim C2: for every entity and action, the mutate helper sets the
entity's Owner field to the configured organization name before the entity is
serialized to JSON for the POST body, regardless of the Owner value it
carried on entry: the raw body sent over the wire is the serialization of the
entity with its owner replaced by the configuration's organization name. -/
theorem c2_owner_stamped_before_serialization (cfg : AuthConfig)
    (t1 t2 t3 : PostTransport) (a1 a2 a3 id : String) (u : User)
    (p : Permission) (r : Role) (c1 c2 c3 : List String)
    (req1 req2 req3 : PostRequest) :
    ((modifyUserById cfg t1 a1 id u c1).2.sent = some req1 →
      req1.body = .raw (jsonSerialize (userToJson { u with owner := cfg.organizationName }))) ∧
    ((modifyPermission cfg t2 a2 p c2).2.sent = some req2 →
      req2.body = .raw (jsonSerialize (permissionToJson { p with owner := cfg.organizationName }))) ∧
    ((modifyRole cfg t3 a3 r c3).2.sent = some req3 →
      req3.body = .raw (jsonSerialize (roleToJson { r with owner := cfg.organizationName }))) := by
  rw [modifyUserById_unfold, modifyPermission_unfold, modifyRole_unfold]
  refine ⟨fun h => ?_, fun h => ?_, fun h => ?_⟩ <;>
  · simp only [modifyResult_sent, doPostSend_sent, Option.some.injEq] at h
    rw [← h]
    rfl

/-- Witness for C2 at concrete inputs: a role entering as owner `"org1"` is
serialized with the configured organization `"org-ex"` in the body. -/
theorem c2_owner_stamped_before_serialization_witness :
    (buildPostRequest cfgEx "add-user" [("id", "org-ex/bob")] "text/plain;charset=UTF-8"
        (.raw (jsonSerialize (userToJson ⟨"org-ex", "bob", "org-ex/bob"⟩)))).body =
      .raw (jsonSerialize (userToJson ⟨"org-ex", "bob", "org-ex/bob"⟩)) ∧
    (buildPostRequest cfgEx "add-permission" [("id", "org1/perm")] "text/plain;charset=UTF-8"
        (.raw (jsonSerialize (permissionToJson ⟨"org-ex", "perm"⟩)))).body =
      .raw (jsonSerialize (permissionToJson ⟨"org-ex", "perm"⟩)) ∧
    (buildPostRequest cfgEx "add-role" [("id", "org1/editor")] "text/plain;charset=UTF-8"
        (.raw (jsonSerialize (roleToJson ⟨"org-ex", "editor"⟩)))).body =
      .raw (jsonSerialize (roleToJson ⟨"org-ex", "editor"⟩)) := by
  have h := c2_owner_stamped_before_serialization cfgEx tPostOk tPostOk tPostOk
    "add-user" "add-permission" "add-role" "org-ex/bob" ⟨"oldo", "bob", "org-ex/bob"⟩
    ⟨"org1", "perm"⟩ ⟨"org1", "editor"⟩ [] [] []
    (buildPostRequest cfgEx "add-user" [("id", "org-ex/bob")] "text/plain;charset=UTF-8"
      (.raw (jsonSerialize (userToJson ⟨"org-ex", "bob", "org-ex/bob"⟩))))
    (buildPostRequest cfgEx "add-permission" [("id", "org1/perm")] "text/plain;charset=UTF-8"
      (.raw (jsonSerialize (permissionToJson ⟨"org-ex", "perm"⟩))))
    (buildPostRequest cfgEx "add-role" [("id", "org1/editor")] "text/plain;charset=UTF-8"
      (.raw (jsonSerialize (roleToJson ⟨"org-ex", "editor"⟩))))
  exact ⟨h.1 rfl, h.2.1 rfl, h.2.2 rfl⟩

/-- Claim C3: for Permission and Role entities, the id query parameter sent
with the mutate request equals `"<Owner>/<Name>"` computed from the entity's
Owner value as it was before the helper overwrites Owner with the configured
organization name. -/
theorem c3_id_uses_entry_owner (cfg : AuthConfig) (t2 t3 : PostTransport)
    (a2 a3 : String) (p : Permission) (r : Role) (c2 c3 : List String)
    (req2 req3 : PostRequest) :
    ((modifyPermission cfg t2 a2 p c2).2.sent = some req2 →
      qlookup "id" req2.query = some (p.owner ++ "/" ++ p.name)) ∧
    ((modifyRole cfg t3 a3 r c3).2.sent = some req3 →
      qlookup "id" req3.query = some (r.owner ++ "/" ++ r.name)) := by
  rw [modifyPermission_unfold, modifyRole_unfold]
  constructor
  · intro h
    simp only [modifyResult_sent, doPostSend_sent, Option.some.injEq] at h
    rw [← h]
    show qlookup "id" (if c2.length ≠ 0 then _ else _) = _
    by_cases hc : c2.length ≠ 0 <;>
      simp [hc, (qlookup_id (p.owner ++ "/" ++ p.name) (joinColumns c2)).1,
        (qlookup_id (p.owner ++ "/" ++ p.name) (joinColumns c2)).2]
  · intro h
    simp only [modifyResult_sent, doPostSend_sent, Option.some.injEq] at h
    rw [← h]
    show qlookup "id" (if c3.length ≠ 0 then _ else _) = _
    by_cases hc : c3.length ≠ 0 <;>
      simp [hc, (qlookup_id (r.owner ++ "/" ++ r.name) (joinColumns c3)).1,
        (qlookup_id (r.owner ++ "/" ++ r.name) (joinColumns c3)).2]

/-- Witness for C3 at concrete inputs: a role `org1/editor` mutated under the
configured organization `"org-ex"` still sends `id = "org1/editor"`. -/
theorem c3_id_uses_entry_owner_witness :
    qlookup "id" (buildPostRequest cfgEx "add-permission" [("id", "org1/perm")]
        "text/plain;charset=UTF-8"
        (.raw (jsonSerialize (permissionToJson ⟨"org-ex", "perm"⟩)))).query = some "org1/perm" ∧
    qlookup "id" (buildPostRequest cfgEx "add-role" [("id", "org1/editor")]
        "text/plain;charset=UTF-8"
        (.raw (jsonSerialize (roleToJson ⟨"org-ex", "editor"⟩)))).query = some "org1/editor" := by
  have h := c3_id_uses_entry_owner cfgEx tPostOk tPostOk "add-permission" "add-role"
    ⟨"org1", "perm"⟩ ⟨"org1", "editor"⟩ [] []
    (buildPostRequest cfgEx "add-permission" [("id", "org1/perm")] "text/plain;charset=UTF-8"
      (.raw (jsonSerialize (permissionToJson ⟨"org-ex", "perm"⟩))))
    (buildPostRequest cfgEx "add-role" [("id", "org1/editor")] "text/plain;charset=UTF-8"
      (.raw (jsonSerialize (roleToJson ⟨"org-ex", "editor"⟩))))
  exact ⟨h.1 rfl, h.2 rfl⟩

end Casdoor

namespace Casdoor

/-- Claim C6: when the column list passed to a mutate helper is non-empty,
the columns query parameter equals the elements joined by commas in input
order; when the list is empty, the columns query parameter is absent from the
request entirely. -/
theorem c6_columns_comma_join_or_absent (cfg : AuthConfig)
    (t1 t2 t3 : PostTransport) (a1 a2 a3 id : String) (u : User)
    (p : Permission) (r : Role) (c1 c2 c3 : List String)
    (req1 req2 req3 : PostRequest) :
    ((modifyUserById cfg t1 a1 id u c1).2.sent = some req1 →
      qlookup "columns" req1.query =
        if c1 = [] then none else some (joinColumns c1)) ∧
    ((modifyPermission cfg t2 a2 p c2).2.sent = some req2 →
      qlookup "columns" req2.query =
        if c2 = [] then none else some (joinColumns c2)) ∧
    ((modifyRole cfg t3 a3 r c3).2.sent = some req3 →
      qlookup "columns" req3.query =
        if c3 = [] then none else some (joinColumns c3)) := by
  rw [modifyUserById_unfold, modifyPermission_unfold, modifyRole_unfold]
  have hne : ("id" : String) ≠ "columns" := by decide
  refine ⟨fun h => ?_, fun h => ?_, fun h => ?_⟩
  · simp only [modifyResult_sent, doPostSend_sent, Option.some.injEq] at h
    rw [← h]
    by_cases hc : c1 = []
    · have hl : c1.length = 0 := by simp [hc]
      simp [buildPostRequest, hc, hl, qlookup, hne]
    · have hl : c1.length ≠ 0 := by simpa [List.length_eq_zero] using hc
      simp [buildPostRequest, hc, hl, qlookup, hne]
  · simp only [modifyResult_sent, doPostSend_sent, Option.some.injEq] at h
    rw [← h]
    by_cases hc : c2 = []
    · have hl : c2.length = 0 := by simp [hc]
      simp [buildPostRequest, hc, hl, qlookup, hne]
    · have hl : c2.length ≠ 0 := by simpa [List.length_eq_zero] using hc
      simp [buildPostRequest, hc, hl, qlookup, hne]
  · simp only [modifyResult_sent, doPostSend_sent, Option.some.injEq] at h
    rw [← h]
    by_cases hc : c3 = []
    · have hl : c3.length = 0 := by simp [hc]
      simp [buildPostRequest, hc, hl, qlookup, hne]
    · have hl : c3.length ≠ 0 := by simpa [List.length_eq_zero] using hc
      simp [buildPostRequest, hc, hl, qlookup, hne]

/-- Witness for C6 at concrete inputs: a two-column list is sent as its comma
join, and an empty list leaves the parameter absent. -/
theorem c6_columns_comma_join_or_absent_witness :
    qlookup "columns" (buildPostRequest cfgEx "update-user"
        [("id", "org-ex/bob"), ("columns", joinColumns ["affiliation", "tag"])]
        "text/plain;charset=UTF-8"
        (.raw (jsonSerialize (userToJson ⟨"org-ex", "bob", "org-ex/bob"⟩)))).query =
      some (joinColumns ["affiliation", "tag"]) ∧
    qlookup "columns" (buildPostRequest cfgEx "add-role" [("id", "org1/editor")]
        "text/plain;charset=UTF-8"
        (.raw (jsonSerialize (roleToJson ⟨"org-ex", "editor"⟩)))).query = none := by
  have h := c6_columns_comma_join_or_absent cfgEx tPostOk tPostOk tPostOk
    "update-user" "a2" "add-role" "org-ex/bob" ⟨"old", "bob", "org-ex/bob"⟩
    ⟨"org1", "perm"⟩ ⟨"org1", "editor"⟩ ["affiliation", "tag"] [] []
    (buildPostRequest cfgEx "update-user"
      [("id", "org-ex/bob"), ("columns", joinColumns ["affiliation", "tag"])]
      "text/plain;charset=UTF-8"
      (.raw (jsonSerialize (userToJson ⟨"org-ex", "bob", "org-ex/bob"⟩))))
    (buildPostRequest cfgEx "a2" [("id", "org1/perm")] "text/plain;charset=UTF-8"
      (.raw (jsonSerialize (permissionToJson ⟨"org-ex", "perm"⟩))))
    (buildPostRequest cfgEx "add-role" [("id", "org1/editor")] "text/plain;charset=UTF-8"
      (.raw (jsonSerialize (roleToJson ⟨"org-ex", "editor"⟩))))
  refine ⟨?_, ?_⟩
  · have h1 := h.1 rfl
    simpa using h1
  · have h3 := h.2.2 rfl
    simpa using h3

end Casdoor

namespace Casdoor

/-- Claim C7: `DoPost` encodes the body exactly as the flags demand: with
`isForm` and `isFile` a multipart form with exactly one part named `"file"`
holding the raw post bytes; with `isForm` and not `isFile` the post bytes
decoded as a flat string-keyed map and re-encoded as
application/x-www-form-urlencoded, failing with a decode error when the bytes
are not such a map; otherwise the post bytes verbatim as text/plain. -/
theorem c7_doPost_body_selection (cfg : AuthConfig)
    (t1 t2 t3 t4 : PostTransport) (a1 a2 a3 a4 : String)
    (q1 q2 q3 q4 : List (String × String)) (pb1 pb2 pb3 pb4 : String)
    (params : List (String × String)) (b : Bool) (req1 req2 req4 : PostRequest) :
    ((DoPost cfg t1 a1 q1 pb1 true true).sent = some req1 →
      req1.body = .multipart [("file", pb1)] ∧
        req1.contentType = "multipart/form-data") ∧
    (jsonParseStringMap pb2 = some params →
      ((DoPost cfg t2 a2 q2 pb2 true false).sent = some req2 →
        req2.body = .formUrlEncoded params ∧
          req2.contentType = "application/x-www-form-urlencoded")) ∧
    (jsonParseStringMap pb3 = none →
      DoPost cfg t3 a3 q3 pb3 true false = ⟨none, some jsonUnmarshalErrMsg, none⟩) ∧
    ((DoPost cfg t4 a4 q4 pb4 false b).sent = some req4 →
      req4.body = .raw pb4 ∧ req4.contentType = "text/plain;charset=UTF-8") := by
  refine ⟨fun h => ?_, fun hm h => ?_, fun hm => ?_, fun h => ?_⟩
  · rw [doPost_formFile, doPostSend_sent, Option.some.injEq] at h
    rw [← h]
    exact ⟨rfl, rfl⟩
  · rw [doPost_form cfg t2 a2 q2 pb2 params hm, doPostSend_sent, Option.some.injEq] at h
    rw [← h]
    exact ⟨rfl, rfl⟩
  · exact doPost_form_badMap cfg t3 a3 q3 pb3 hm
  · rw [doPost_notForm, doPostSend_sent, Option.some.injEq] at h
    rw [← h]
    exact ⟨rfl, rfl⟩

/-- Witness for C7 at concrete inputs: a file upload carries exactly one
multipart part named `"file"` with the raw bytes; a form POST of a one-entry
map is url-encoded; non-map bytes fail with the decode error; a plain POST
sends the bytes verbatim as text/plain. -/
theorem c7_doPost_body_selection_witness :
    ((buildPostRequest cfgEx "upload-resource" [] "multipart/form-data"
        (.multipart [("file", "RAWBYTES")])).body = .multipart [("file", "RAWBYTES")] ∧
      (buildPostRequest cfgEx "upload-resource" [] "multipart/form-data"
        (.multipart [("file", "RAWBYTES")])).contentType = "multipart/form-data") ∧
    ((buildPostRequest cfgEx "login" [] "application/x-www-form-urlencoded"
        (.formUrlEncoded [("k", "v")])).body = .formUrlEncoded [("k", "v")] ∧
      (buildPostRequest cfgEx "login" [] "application/x-www-form-urlencoded"
        (.formUrlEncoded [("k", "v")])).contentType = "application/x-www-form-urlencoded") ∧
    DoPost cfgEx tPostOk "login" [] "notjson" true false =
      ⟨none, some jsonUnmarshalErrMsg, none⟩ ∧
    ((buildPostRequest cfgEx "add-role" [] "text/plain;charset=UTF-8"
        (.raw "plain")).body = .raw "plain" ∧
      (buildPostRequest cfgEx "add-role" [] "text/plain;charset=UTF-8"
        (.raw "plain")).contentType = "text/plain;charset=UTF-8") := by
  have h := c7_doPost_body_selection cfgEx tPostOk tPostOk tPostOk tPostOk
    "upload-resource" "login" "login" "add-role" [] [] [] []
    "RAWBYTES" "\x7b\"k\":\"v\"\x7d" "notjson" "plain" [("k", "v")] false
    (buildPostRequest cfgEx "upload-resource" [] "multipart/form-data"
      (.multipart [("file", "RAWBYTES")]))
    (buildPostRequest cfgEx "login" [] "application/x-www-form-urlencoded"
      (.formUrlEncoded [("k", "v")]))
    (buildPostRequest cfgEx "add-role" [] "text/plain;charset=UTF-8" (.raw "plain"))
  exact ⟨h.1 rfl, h.2.1 rfl rfl, h.2.2.1 rfl, h.2.2.2 rfl⟩

/-- Claim C1 (evaluation at the failing input): the remote error message is
passed to `fmt.Errorf` as a format string, so an envelope with
`status = "error"` and `msg = "50%"` makes the pipeline return a nil envelope
together with the error text `"50%!(NOVERB)"`, which differs from the msg
field: the message is not propagated character for character for every
possible msg content. -/
theorem c1_remote_error_message_mangled :
    DoGetResponse cfgEx (fun _ => .ok errPercentWire) "url" =
      (none, some "50%!(NOVERB)") ∧
    DoGetBytes cfgEx (fun _ => .ok errPercentWire) "url" =
      (none, some "50%!(NOVERB)") ∧
    (DoPost cfgEx (fun _ => .ok errPercentWire) "add-user" [] "" false false).resp = none ∧
    (DoPost cfgEx (fun _ => .ok errPercentWire) "add-user" [] "" false false).err =
      some "50%!(NOVERB)" ∧
    ("50%!(NOVERB)" : String) ≠ "50%" :=
  ⟨rfl, rfl, rfl, rfl, by decide⟩

/-- Counterexample for C5: the wire data bytes `"[1, 2]"` decode to the array
value whose re-serialization is `"[1,2]"`, so `DoGetBytes` does not return
the original data bytes byte for byte. -/
theorem c5_reserialization_not_byte_identity :
    jsonParse "[1, 2]" = some (.arr (jitems [.num 1, .num 2])) ∧
    jsonSerialize (.arr (jitems [.num 1, .num 2])) = "[1,2]" ∧
    DoGetBytes cfgEx (fun _ => .ok okArrayWire) "url" = (some "[1,2]", none) ∧
    ("[1,2]" : String) ≠ "[1, 2]" :=
  ⟨rfl, rfl, rfl, by decide⟩

end Casdoor

namespace Casdoor

/-! ### Round trip of the JSON model: parsing a serialized value re-creates it -/

theorem string_mk_toList (s : String) : String.mk s.toList = s := rfl

theorem skipWs_cons (c : Char) (cs : List Char) (h : isWsChar c = false) :
    skipWs (c :: cs) = c :: cs := by
  simp [skipWs, h]

theorem digitChar_spec (n : Nat) (h : n < 10) :
    (digitChar n).isDigit = true ∧ digitVal (digitChar n) = n := by
  interval_cases n <;> exact ⟨by decide, by decide⟩

theorem digitsVal_append (ds : List Char) (c : Char) :
    digitsVal (ds ++ [c]) = 10 * digitsVal ds + digitVal c := by
  simp [digitsVal, List.foldl_append]
  omega

theorem natCharsAux_spec : ∀ (fuel n : Nat), n < fuel →
    (∀ c ∈ natCharsAux fuel n, c.isDigit = true) ∧
      natCharsAux fuel n ≠ [] ∧ digitsVal (natCharsAux fuel n) = n := by
  intro fuel
  induction fuel with
  | zero => intro n h; omega
  | succ f ih =>
    intro n h
    by_cases h10 : n < 10
    · refine ⟨?_, by simp [natCharsAux, h10], ?_⟩
      · intro c hc
        simp [natCharsAux, h10] at hc
        subst hc
        exact (digitChar_spec n h10).1
      · simp [natCharsAux, h10, digitsVal]
        exact (digitChar_spec n h10).2
    · have h1 : n / 10 < n := Nat.div_lt_self (by omega) (by omega)
      have hdiv : n / 10 < f := by omega
      obtain ⟨hd, hne, hv⟩ := ih (n / 10) hdiv
      have heq : natCharsAux (f + 1) n =
          natCharsAux f (n / 10) ++ [digitChar (n % 10)] := by
        simp [natCharsAux, h10]
      refine ⟨?_, ?_, ?_⟩
      · intro c hc
        rw [heq] at hc
        rcases List.mem_append.mp hc with hm | hm
        · exact hd c hm
        · simp at hm
          subst hm
          exact (digitChar_spec (n % 10) (by omega)).1
      · rw [heq]
        simp
      · rw [heq, digitsVal_append, hv, (digitChar_spec (n % 10) (by omega)).2]
        omega

theorem natChars_spec (n : Nat) :
    (∀ c ∈ natChars n, c.isDigit = true) ∧
      natChars n ≠ [] ∧ digitsVal (natChars n) = n :=
  natCharsAux_spec (n + 1) n (Nat.lt_succ_self n)

theorem spanDigits_exact (ds rest : List Char) (hds : ∀ c ∈ ds, c.isDigit = true)
    (hrest : ∀ c cs, rest = c :: cs → c.isDigit = false) :
    spanDigits (ds ++ rest) = (ds, rest) := by
  induction ds with
  | nil =>
    cases rest with
    | nil => rfl
    | cons c cs => simp [spanDigits, hrest c cs rfl]
  | cons d ds ih =>
    have hd : d.isDigit = true := hds d (by simp)
    simp [spanDigits, hd, ih (fun c hc => hds c (List.mem_cons_of_mem _ hc))]

theorem sepHead_head_not_digit (rest : List Char) (h : sepHead rest = true) :
    ∀ c cs, rest = c :: cs → c.isDigit = false := by
  intro c cs he
  subst he
  simp [sepHead] at h
  rcases h with (h | h) | h <;> subst h <;> decide

theorem sepHead_numEndOk (rest : List Char) (h : sepHead rest = true) :
    numEndOk rest = true := by
  cases rest with
  | nil => rfl
  | cons c cs =>
    simp [sepHead] at h
    rcases h with (h | h) | h <;> subst h <;> rfl

theorem sepHead_skipWs (rest : List Char) (h : sepHead rest = true) :
    skipWs rest = rest := by
  cases rest with
  | nil => rfl
  | cons c cs =>
    simp [sepHead] at h
    rcases h with (h | h) | h <;> subst h <;> rfl

theorem parseNum_natChars (neg : Bool) (m : Nat) (rest : List Char)
    (hsep : sepHead rest = true) :
    parseNumAfterSign neg (natChars m ++ rest) =
      some (.num (if neg then -(m : Int) else (m : Int)), rest) := by
  obtain ⟨hd, hne, hv⟩ := natChars_spec m
  unfold parseNumAfterSign
  rw [spanDigits_exact _ _ hd (sepHead_head_not_digit rest hsep)]
  simp [hne, sepHead_numEndOk rest hsep, hv]

theorem parseStrChars_quote (l : List Char) :
    parseStrChars ('"' :: l) = some ([], l) := by
  rw [parseStrChars.eq_def]
  simp

theorem parseStrChars_esc (e u : Char) (l : List Char) (hu : unescape e = some u) :
    parseStrChars ('\\' :: e :: l) =
      (match parseStrChars l with
       | none => none
       | some (s, r) => some (u :: s, r)) := by
  rw [parseStrChars.eq_def]
  simp [hu]

theorem parseStrChars_other (c : Char) (l : List Char) (hq : c ≠ '"') (hb : c ≠ '\\') :
    parseStrChars (c :: l) =
      (match parseStrChars l with
       | none => none
       | some (s, r) => some (c :: s, r)) := by
  rw [parseStrChars.eq_def]
  simp [hq, hb]

theorem parseStr_escape (s : List Char) (rest : List Char) :
    parseStrChars (escapeChars s ++ '"' :: rest) = some (s, rest) := by
  induction s with
  | nil =>
    show parseStrChars ('"' :: rest) = some ([], rest)
    exact parseStrChars_quote rest
  | cons c cs ih =>
    by_cases hq : c = '"'
    · subst hq
      show parseStrChars ('\\' :: '"' :: (escapeChars cs ++ '"' :: rest)) = _
      rw [parseStrChars_esc '"' '"' _ rfl, ih]
    · by_cases hb : c = '\\'
      · subst hb
        show parseStrChars ('\\' :: '\\' :: (escapeChars cs ++ '"' :: rest)) = _
        rw [parseStrChars_esc '\\' '\\' _ rfl, ih]
      · have hesc : escapeChars (c :: cs) ++ '"' :: rest =
            c :: (escapeChars cs ++ '"' :: rest) := by
          simp [escapeChars, escChar, hq, hb]
        rw [hesc, parseStrChars_other c _ hq hb, ih]

theorem digit_not_special (c : Char) (h : c.isDigit = true) :
    isWsChar c = false ∧ c ≠ ']' ∧ c ≠ '}' := by
  refine ⟨?_, ?_, ?_⟩
  · by_contra hw
    have hw2 : isWsChar c = true := by simpa using hw
    simp [isWsChar] at hw2
    rcases hw2 with ((h1 | h1) | h1) | h1 <;> subst h1 <;> exact absurd h (by decide)
  · intro he; subst he; exact absurd h (by decide)
  · intro he; subst he; exact absurd h (by decide)

theorem serJson_head (d : Json) :
    ∃ c cs, serJson d = c :: cs ∧ isWsChar c = false ∧ c ≠ ']' ∧ c ≠ '}' := by
  cases d with
  | null => exact ⟨'n', _, rfl, by decide, by decide, by decide⟩
  | bool b =>
    cases b with
    | false => exact ⟨'f', _, rfl, by decide, by decide, by decide⟩
    | true => exact ⟨'t', _, rfl, by decide, by decide, by decide⟩
  | num n =>
    show ∃ c cs, intChars n = c :: cs ∧ _
    unfold intChars
    by_cases hn : n < 0
    · exact ⟨'-', natChars (-n).toNat, by simp [hn], by decide, by decide, by decide⟩
    · obtain ⟨hd, hne, _⟩ := natChars_spec n.toNat
      cases hnc : natChars n.toNat with
      | nil => exact absurd hnc hne
      | cons c cs =>
        have hcd : c.isDigit = true := hd c (by simp [hnc])
        obtain ⟨h1, h2, h3⟩ := digit_not_special c hcd
        exact ⟨c, cs, by simp [hn, hnc], h1, h2, h3⟩
  | str s => exact ⟨'"', _, rfl, by decide, by decide, by decide⟩
  | arr xs => exact ⟨'[', _, rfl, by decide, by decide, by decide⟩
  | obj fs => exact ⟨'{', _, rfl, by decide, by decide, by decide⟩

theorem serJson_length_pos (d : Json) : 0 < (serJson d).length := by
  obtain ⟨c, cs, he, -, -, -⟩ := serJson_head d
  simp [he]

end Casdoor

namespace Casdoor

theorem digit_not_keyword (c : Char) (h : c.isDigit = true) :
    c ≠ 'n' ∧ c ≠ 't' ∧ c ≠ 'f' ∧ c ≠ '"' ∧ c ≠ '[' ∧ c ≠ '{' ∧ c ≠ '-' := by
  refine ⟨?_, ?_, ?_, ?_, ?_, ?_, ?_⟩ <;>
    (intro he; subst he; exact absurd h (by decide))

theorem parseValue_lbrack (f : Nat) (l : List Char) :
    parseValue (f + 1) ('[' :: l) =
      (if headIs ']' (skipWs l) then some (.arr .nil, (skipWs l).tail)
       else
         match parseItems f (skipWs l) with
         | some (xs, r2) => some (.arr xs, r2)
         | none => none) := by
  rw [parseValue.eq_def]
  simp [skipWs, isWsChar]

theorem parseValue_lbrace (f : Nat) (l : List Char) :
    parseValue (f + 1) ('{' :: l) =
      (if headIs '}' (skipWs l) then some (.obj .nil, (skipWs l).tail)
       else
         match parseFields f (skipWs l) with
         | some (fs, r2) => some (.obj fs, r2)
         | none => none) := by
  rw [parseValue.eq_def]
  simp [skipWs, isWsChar]

theorem parseItems_succ (f : Nat) (cs : List Char) :
    parseItems (f + 1) cs =
      (match parseValue f cs with
       | none => none
       | some (v, rest) =>
         if headIs ',' (skipWs rest) then
           match parseItems f (skipWs rest).tail with
           | some (vs, r2) => some (.cons v vs, r2)
           | none => none
         else if headIs ']' (skipWs rest) then some (.cons v .nil, (skipWs rest).tail)
         else none) := by
  rw [parseItems.eq_def]

theorem parseFields_succ (f : Nat) (cs : List Char) :
    parseFields (f + 1) cs =
      (if headIs '"' cs then
        match parseStrChars cs.tail with
        | none => none
        | some (k, r1) =>
          if headIs ':' (skipWs r1) then
            match parseValue f (skipWs r1).tail with
            | none => none
            | some (v, r3) =>
              if headIs ',' (skipWs r3) then
                match parseFields f (skipWs (skipWs r3).tail) with
                | some (fs2, r5) => some (.cons (String.mk k) v fs2, r5)
                | none => none
              else if headIs '}' (skipWs r3) then
                some (.cons (String.mk k) v .nil, (skipWs r3).tail)
              else none
          else none
      else none) := by
  rw [parseFields.eq_def]

mutual

theorem parseValue_ser : ∀ (d : Json) (rest : List Char) (fuel : Nat),
    sepHead rest = true → (serJson d).length < fuel →
    parseValue fuel (serJson d ++ rest) = some (d, rest)
  | .null, rest, fuel, hsep, hlen => by
    cases fuel with
    | zero => omega
    | succ f =>
      show parseValue (f + 1) (['n', 'u', 'l', 'l'] ++ rest) = some (.null, rest)
      rw [parseValue.eq_def]
      simp [skipWs, isWsChar, expectChars]
  | .bool true, rest, fuel, hsep, hlen => by
    cases fuel with
    | zero => omega
    | succ f =>
      show parseValue (f + 1) (['t', 'r', 'u', 'e'] ++ rest) = some (.bool true, rest)
      rw [parseValue.eq_def]
      simp [skipWs, isWsChar, expectChars]
  | .bool false, rest, fuel, hsep, hlen => by
    cases fuel with
    | zero => omega
    | succ f =>
      show parseValue (f + 1) (['f', 'a', 'l', 's', 'e'] ++ rest) = some (.bool false, rest)
      rw [parseValue.eq_def]
      simp [skipWs, isWsChar, expectChars]
  | .str s, rest, fuel, hsep, hlen => by
    cases fuel with
    | zero => omega
    | succ f =>
      show parseValue (f + 1) (('"' :: (escapeChars s.toList ++ ['"'])) ++ rest) =
        some (.str s, rest)
      have hre : ('"' :: (escapeChars s.toList ++ ['"'])) ++ rest =
          '"' :: (escapeChars s.toList ++ '"' :: rest) := by simp
      rw [hre, parseValue.eq_def]
      simp [skipWs, isWsChar, parseStr_escape, string_mk_toList]
  | .num n, rest, fuel, hsep, hlen => by
    cases fuel with
    | zero => omega
    | succ f =>
      show parseValue (f + 1) (intChars n ++ rest) = some (.num n, rest)
      by_cases hn : n < 0
      · have hi : intChars n = '-' :: natChars (-n).toNat := by simp [intChars, hn]
        rw [hi, List.cons_append, parseValue.eq_def]
        simp only [skipWs_cons '-' _ (by decide)]
        rw [parseNum_natChars true (-n).toNat rest hsep]
        rw [show (((-n).toNat : Int)) = -n from Int.toNat_of_nonneg (by omega)]
        simp
      · have hi : intChars n = natChars n.toNat := by simp [intChars, hn]
        obtain ⟨hd, hne, hv⟩ := natChars_spec n.toNat
        cases hnc : natChars n.toNat with
        | nil => exact absurd hnc hne
        | cons c cs =>
          have hcd : c.isDigit = true := hd c (by simp [hnc])
          obtain ⟨hws, hbr1, hbr2⟩ := digit_not_special c hcd
          obtain ⟨k1, k2, k3, k4, k5, k6, k7⟩ := digit_not_keyword c hcd
          rw [hi, hnc, List.cons_append, parseValue.eq_def]
          simp only [skipWs_cons c _ hws]
          simp only [k1, k2, k3, k4, k5, k6, k7, hcd, if_false, ite_false, ite_true, if_true]
          rw [← List.cons_append, ← hnc,
            parseNum_natChars false n.toNat rest hsep]
          rw [show ((n.toNat : Int)) = n from Int.toNat_of_nonneg (by omega)]
          simp
  | .arr .nil, rest, fuel, hsep, hlen => by
    cases fuel with
    | zero => omega
    | succ f =>
      show parseValue (f + 1) ('[' :: ']' :: rest) = some (.arr .nil, rest)
      rw [parseValue.eq_def]
      simp [skipWs, isWsChar, headIs]
  | .arr (.cons x xs), rest, fuel, hsep, hlen => by
    cases fuel with
    | zero => omega
    | succ f =>
      obtain ⟨c, cs, hserx, hws, hbr1, hbr2⟩ := serJson_head x
      show parseValue (f + 1) (('[' :: (serItems (.cons x xs) ++ [']'])) ++ rest) =
        some (.arr (.cons x xs), rest)
      have hre : ('[' :: (serItems (.cons x xs) ++ [']'])) ++ rest =
          '[' :: (serItems (.cons x xs) ++ ']' :: rest) := by simp
      have hlist : serItems (.cons x xs) ++ ']' :: rest =
          c :: (cs ++ ((itemsSep xs ++ serItems xs) ++ ']' :: rest)) := by
        simp [serItems, hserx]
      have hskip : skipWs (serItems (.cons x xs) ++ ']' :: rest) =
          serItems (.cons x xs) ++ ']' :: rest := by
        rw [hlist]
        exact skipWs_cons c _ hws
      have hhead : headIs ']' (serItems (.cons x xs) ++ ']' :: rest) = false := by
        rw [hlist]
        simp [headIs, hbr1]
      have hbound : (serItems (.cons x xs)).length + 1 < f := by
        have hL : (serJson (.arr (.cons x xs))).length =
            (serItems (.cons x xs)).length + 2 := by simp [serJson]
        omega
      rw [hre, parseValue_lbrack, hskip, hhead, parseItems_ser x xs rest f hbound]
      simp
  | .obj .nil, rest, fuel, hsep, hlen => by
    cases fuel with
    | zero => omega
    | succ f =>
      show parseValue (f + 1) ('{' :: '}' :: rest) = some (.obj .nil, rest)
      rw [parseValue.eq_def]
      simp [skipWs, isWsChar, headIs]
  | .obj (.cons k v fs), rest, fuel, hsep, hlen => by
    cases fuel with
    | zero => omega
    | succ f =>
      show parseValue (f + 1) (('{' :: (serFields (.cons k v fs) ++ ['}'])) ++ rest) =
        some (.obj (.cons k v fs), rest)
      have hre : ('{' :: (serFields (.cons k v fs) ++ ['}'])) ++ rest =
          '{' :: (serFields (.cons k v fs) ++ '}' :: rest) := by simp
      have hlist : serFields (.cons k v fs) ++ '}' :: rest =
          '"' :: ((escapeChars k.toList ++ '"' :: ':' :: serJson v) ++
            ((fieldsSep fs ++ serFields fs) ++ '}' :: rest)) := by
        simp [serFields, serOneField]
      have hskip : skipWs (serFields (.cons k v fs) ++ '}' :: rest) =
          serFields (.cons k v fs) ++ '}' :: rest := by
        rw [hlist]
        exact skipWs_cons _ _ (by decide)
      have hhead : headIs '}' (serFields (.cons k v fs) ++ '}' :: rest) = false := by
        rw [hlist]
        simp [headIs]
      have hbound : (serFields (.cons k v fs)).length + 1 < f := by
        have hL : (serJson (.obj (.cons k v fs))).length =
            (serFields (.cons k v fs)).length + 2 := by simp [serJson]
        omega
      rw [hre, parseValue_lbrace, hskip, hhead, parseFields_ser k v fs rest f hbound]
      simp
termination_by d _ _ _ _ => sizeOf d
decreasing_by
  all_goals simp_wf
  all_goals omega

theorem parseItems_ser : ∀ (x : Json) (xs : JsonItems) (rest : List Char) (fuel : Nat),
    (serItems (.cons x xs)).length + 1 < fuel →
    parseItems fuel (serItems (.cons x xs) ++ ']' :: rest) = some (.cons x xs, rest)
  | x, .nil, rest, fuel, hlen => by
    cases fuel with
    | zero => omega
    | succ f =>
      have hcs : serItems (.cons x .nil) ++ ']' :: rest =
          serJson x ++ ((itemsSep .nil ++ serItems .nil) ++ ']' :: rest) := by
        simp [serItems]
      have hb1 : (serJson x).length < f := by
        have h1 : (serItems (.cons x .nil)).length =
            (serJson x).length + ((itemsSep (.nil : JsonItems)).length +
              (serItems (.nil : JsonItems)).length) := by
          simp [serItems]
        omega
      rw [parseItems_succ, hcs,
        parseValue_ser x _ f (by simp [itemsSep, serItems, sepHead]) hb1]
      simp [itemsSep, serItems, skipWs, isWsChar, headIs]
  | x, .cons y ys, rest, fuel, hlen => by
    cases fuel with
    | zero => omega
    | succ f =>
      have hcs : serItems (.cons x (.cons y ys)) ++ ']' :: rest =
          serJson x ++ ((itemsSep (.cons y ys) ++ serItems (.cons y ys)) ++ ']' :: rest) := by
        simp [serItems]
      have hsep2 : sepHead ((itemsSep (.cons y ys) ++ serItems (.cons y ys)) ++ ']' :: rest) =
          true := by
        simp [itemsSep, sepHead]
      have hb1 : (serJson x).length < f := by
        have h1 : (serItems (.cons x (.cons y ys))).length =
            (serJson x).length + ((itemsSep (.cons y ys)).length +
              (serItems (.cons y ys)).length) := by
          simp [serItems]
        omega
      have hre2 : (itemsSep (.cons y ys) ++ serItems (.cons y ys)) ++ ']' :: rest =
          ',' :: (serItems (.cons y ys) ++ ']' :: rest) := by simp [itemsSep]
      have hb2 : (serItems (.cons y ys)).length + 1 < f := by
        have h1 : (serItems (.cons x (.cons y ys))).length =
            (serJson x).length + (1 + (serItems (.cons y ys)).length) := by
          simp [serItems, itemsSep]
          omega
        have h2 := serJson_length_pos x
        omega
      rw [parseItems_succ, hcs, parseValue_ser x _ f hsep2 hb1, hre2]
      simp [skipWs, isWsChar, headIs, parseItems_ser y ys rest f hb2]
termination_by x xs _ _ _ => 1 + sizeOf x + sizeOf xs
decreasing_by
  all_goals simp_wf
  all_goals omega

theorem parseFields_ser : ∀ (k : String) (v : Json) (fs : JsonFields)
    (rest : List Char) (fuel : Nat),
    (serFields (.cons k v fs)).length + 1 < fuel →
    parseFields fuel (serFields (.cons k v fs) ++ '}' :: rest) = some (.cons k v fs, rest)
  | k, v, .nil, rest, fuel, hlen => by
    cases fuel with
    | zero => omega
    | succ f =>
      have hcs : serFields (.cons k v .nil) ++ '}' :: rest =
          '"' :: (escapeChars k.toList ++ '"' ::
            (':' :: (serJson v ++ ((fieldsSep .nil ++ serFields .nil) ++ '}' :: rest)))) := by
        simp [serFields, serOneField]
      have hsep2 : sepHead ((fieldsSep (.nil : JsonFields) ++ serFields (.nil : JsonFields)) ++
          '}' :: rest) = true := by
        simp [fieldsSep, serFields, sepHead]
      have hb1 : (serJson v).length < f := by
        have h1 : (serFields (.cons k v .nil)).length =
            (serOneField k (serJson v)).length +
              ((fieldsSep (.nil : JsonFields)).length +
                (serFields (.nil : JsonFields)).length) := by
          simp [serFields]
        have h2 : (serOneField k (serJson v)).length =
            (escapeChars k.toList).length + ((serJson v).length + 3) := by
          simp [serOneField]
          omega
        omega
      rw [parseFields_succ, hcs]
      simp only [List.tail_cons]
      rw [show headIs '"' ('"' :: (escapeChars k.toList ++ '"' ::
          (':' :: (serJson v ++ ((fieldsSep (.nil : JsonFields) ++
            serFields (.nil : JsonFields)) ++ '}' :: rest))))) = true
        from by simp [headIs]]
      simp only [if_true]
      rw [parseStr_escape k.toList
        (':' :: (serJson v ++ ((fieldsSep (.nil : JsonFields) ++
          serFields (.nil : JsonFields)) ++ '}' :: rest)))]
      simp only [skipWs_cons ':' _ (by decide), List.tail_cons]
      rw [show headIs ':' (':' :: (serJson v ++ ((fieldsSep (.nil : JsonFields) ++
          serFields (.nil : JsonFields)) ++ '}' :: rest))) = true
        from by simp [headIs]]
      simp only [if_true]
      rw [parseValue_ser v _ f hsep2 hb1]
      simp [fieldsSep, serFields, skipWs, isWsChar, headIs, string_mk_toList]
  | k, v, .cons k2 v2 fs2, rest, fuel, hlen => by
    cases fuel with
    | zero => omega
    | succ f =>
      have hcs : serFields (.cons k v (.cons k2 v2 fs2)) ++ '}' :: rest =
          '"' :: (escapeChars k.toList ++ '"' ::
            (':' :: (serJson v ++ ((fieldsSep (.cons k2 v2 fs2) ++
              serFields (.cons k2 v2 fs2)) ++ '}' :: rest)))) := by
        simp [serFields, serOneField]
      have hsep2 : sepHead ((fieldsSep (.cons k2 v2 fs2) ++ serFields (.cons k2 v2 fs2)) ++
          '}' :: rest) = true := by
        simp [fieldsSep, sepHead]
      have hb1 : (serJson v).length < f := by
        have h1 : (serFields (.cons k v (.cons k2 v2 fs2))).length =
            (serOneField k (serJson v)).length +
              ((fieldsSep (.cons k2 v2 fs2)).length +
                (serFields (.cons k2 v2 fs2)).length) := by
          simp [serFields]
        have h2 : (serOneField k (serJson v)).length =
            (escapeChars k.toList).length + ((serJson v).length + 3) := by
          simp [serOneField]
          omega
        omega
      have hre2 : (fieldsSep (.cons k2 v2 fs2) ++ serFields (.cons k2 v2 fs2)) ++ '}' :: rest =
          ',' :: (serFields (.cons k2 v2 fs2) ++ '}' :: rest) := by simp [fieldsSep]
      have hb2 : (serFields (.cons k2 v2 fs2)).length + 1 < f := by
        have h1 : (serFields (.cons k v (.cons k2 v2 fs2))).length =
            (serOneField k (serJson v)).length +
              (1 + (serFields (.cons k2 v2 fs2)).length) := by
          simp [serFields, fieldsSep]
          omega
        have h2 : (serOneField k (serJson v)).length =
            (escapeChars k.toList).length + ((serJson v).length + 3) := by
          simp [serOneField]
          omega
        omega
      have hskip2 : skipWs (serFields (.cons k2 v2 fs2) ++ '}' :: rest) =
          serFields (.cons k2 v2 fs2) ++ '}' :: rest := by
        rw [show serFields (.cons k2 v2 fs2) ++ '}' :: rest =
            '"' :: ((escapeChars k2.toList ++ '"' :: ':' :: serJson v2) ++
              ((fieldsSep fs2 ++ serFields fs2) ++ '}' :: rest))
          from by simp [serFields, serOneField]]
        exact skipWs_cons _ _ (by decide)
      rw [parseFields_succ, hcs]
      simp only [List.tail_cons]
      rw [show headIs '"' ('"' :: (escapeChars k.toList ++ '"' ::
          (':' :: (serJson v ++ ((fieldsSep (.cons k2 v2 fs2) ++
            serFields (.cons k2 v2 fs2)) ++ '}' :: rest))))) = true
        from by simp [headIs]]
      simp only [if_true]
      rw [parseStr_escape k.toList
        (':' :: (serJson v ++ ((fieldsSep (.cons k2 v2 fs2) ++
          serFields (.cons k2 v2 fs2)) ++ '}' :: rest)))]
      simp only [skipWs_cons ':' _ (by decide), List.tail_cons]
      rw [show headIs ':' (':' :: (serJson v ++ ((fieldsSep (.cons k2 v2 fs2) ++
          serFields (.cons k2 v2 fs2)) ++ '}' :: rest))) = true
        from by simp [headIs]]
      simp only [if_true]
      rw [parseValue_ser v _ f hsep2 hb1, hre2]
      simp only [skipWs_cons ',' _ (by decide), List.tail_cons]
      rw [show headIs ',' (',' :: (serFields (.cons k2 v2 fs2) ++ '}' :: rest)) = true
        from by simp [headIs]]
      simp only [if_true]
      rw [hskip2, parseFields_ser k2 v2 fs2 rest f hb2]
      simp [string_mk_toList]
termination_by k v fs _ _ _ => 1 + sizeOf v + sizeOf fs
decreasing_by
  all_goals simp_wf
  all_goals omega

end

end Casdoor

namespace Casdoor

/-- Parsing a serialized JSON value re-creates the value: the value-level
round trip of the model's `json.Unmarshal` after `json.Marshal`. -/
theorem jsonParse_jsonSerialize (d : Json) : jsonParse (jsonSerialize d) = some d := by
  unfold jsonParse jsonSerialize
  have h1 : (String.mk (serJson d)).toList = serJson d := rfl
  rw [h1]
  have h2 : parseValue ((serJson d).length + 1) (serJson d) = some (d, []) := by
    have h3 := parseValue_ser d [] ((serJson d).length + 1) rfl (by omega)
    rwa [List.append_nil] at h3
  rw [h2]
  simp [skipWs]

/-- Claim C5 (amended): for every response with status `"ok"`, `DoGetBytes`
returns the decoded data field re-serialized by `json.Marshal`; the
value-level round trip `unmarshal (marshal data) = data` holds, but the
returned bytes equal the original wire bytes only when those are already in
canonical serialized form, not byte for byte in general. -/
theorem c5_data_roundtrip_value_level (cfg : AuthConfig) (t : GetTransport)
    (url : String) (r : Response) :
    (DoGetResponse cfg t url = (some r, none) →
      DoGetBytes cfg t url = (some (jsonSerialize r.data), none)) ∧
    (∀ d : Json, jsonParse (jsonSerialize d) = some d) := by
  constructor
  · intro h
    unfold DoGetBytes
    rw [h]
  · exact jsonParse_jsonSerialize

/-- Witness for C5 (amended) at concrete inputs: the wire data `[1, 2]` comes
back as its canonical re-serialization, and the round trip on that value is
the identity. -/
theorem c5_data_roundtrip_value_level_witness :
    DoGetBytes cfgEx (fun _ => .ok okArrayWire) "url" =
      (some (jsonSerialize (Json.arr (jitems [Json.num 1, Json.num 2]))), none) ∧
    jsonParse (jsonSerialize (Json.arr (jitems [Json.num 1, Json.num 2]))) =
      some (.arr (jitems [.num 1, .num 2])) := by
  have h := c5_data_roundtrip_value_level cfgEx (fun _ => .ok okArrayWire) "url"
    ⟨"ok", "", .arr (jitems [.num 1, .num 2]), .null⟩
  exact ⟨h.1 rfl, h.2 (.arr (jitems [.num 1, .num 2]))⟩

end Casdoor
